import Mathlib

/-!
Verification of the tabular-data-to-relational-schema normalization and load
pipeline of the Files-To-DB repository (src/db_converter.py, src/converter.py).

The Python functions are shallowly embedded as executable Lean definitions:

* cell values, sheet contents and SQL tables are abstracted as `String`-valued
  grids (`DataFrame`); the claims under study concern names, ordering, counts
  and error propagation, never cell typing;
* the SQLite store file is a `Store`, an association list from table name to
  table, in creation order; `to_sql` with `if_exists = replace` first drops any
  table of that name, then creates the new one — SQLite rejects a `CREATE
  TABLE` whose column list repeats a name with the error
  `duplicate column name: <name>`, which is modelled by `firstDup`;
* Python's `str.lower` is modelled on the ASCII range by `pyCharLower`
  (non-ASCII case folding is outside the model); `str.isalnum` is modelled by
  `Char.isAlphanum`; `str.strip` by trimming whitespace on both ends;
* a raised Python exception is modelled as `Except.error` carrying the
  exception message; the mutated store is returned alongside, mirroring the
  on-disk side effects that survive the raise;
* `pd.ExcelWriter` raises on exit when no sheet was written (openpyxl:
  `At least one sheet must be visible`), so `pdf_to_excel` returns an
  `Except`, erroring when neither tables nor text produced a sheet;
* `pd.read_sql` on the spliced preview query is modelled by `runQuery`.  It
  evaluates the query text the preview emits the way SQLite does on the
  query shapes the theorems below quantify over: tokens separated by runs of
  spaces, a bare-identifier table name (possibly padded by extra spaces),
  every SQLite keyword rejected at the table position, ASCII-case-insensitive
  table-name lookup, and a negative `LIMIT` meaning unlimited.  Richer SQL
  reachable through other spliced names (quoted identifiers, aliases,
  comments, schema qualification) is not modelled; no theorem below
  quantifies over names in that region — the general theorems are restricted
  to `isValidIdent` names, everything else is settled at concrete inputs on
  which the model and SQLite agree.
-/

namespace FilesToDB

/-! ## Identifier sanitization (db_converter.py lines 40-45) -/

/-- ASCII case-folding table: Python's `str.lower` restricted to ASCII. -/
def asciiCaseTable : List (Char × Char) :=
  [('A', 'a'), ('B', 'b'), ('C', 'c'), ('D', 'd'), ('E', 'e'), ('F', 'f'),
   ('G', 'g'), ('H', 'h'), ('I', 'i'), ('J', 'j'), ('K', 'k'), ('L', 'l'),
   ('M', 'm'), ('N', 'n'), ('O', 'o'), ('P', 'p'), ('Q', 'q'), ('R', 'r'),
   ('S', 's'), ('T', 't'), ('U', 'u'), ('V', 'v'), ('W', 'w'), ('X', 'x'),
   ('Y', 'y'), ('Z', 'z')]

/-- One character of Python's `str.lower` (ASCII range). -/
def pyCharLower (c : Char) : Char := (asciiCaseTable.lookup c).getD c

/-- Python's single-character `str.replace old new`. -/
def pyReplace (old new : Char) (cs : List Char) : List Char :=
  cs.map (fun c => if c = old then new else c)

/-- `col.lower().replace(' ', '_').replace('-', '_')`
(db_converter.py line 40). -/
def sanitize_column (s : String) : String :=
  ⟨pyReplace '-' '_' (pyReplace ' ' '_' (s.data.map pyCharLower))⟩

/-- The character filter of table-name sanitization:
`char.isalnum() or char == '_'`. -/
def keepChar (c : Char) : Bool := c.isAlphanum || c == '_'

/-- `''.join(char for char in sheet_name if char.isalnum() or char == '_').lower()`
(db_converter.py lines 44-45). -/
def sanitize_table (s : String) : String :=
  ⟨(s.data.filter keepChar).map pyCharLower⟩

/-- Spec §4.1, column rule, read per character: "lower-case the input; replace
each space and hyphen character with an underscore. No other characters are
altered or stripped" — position `i` of the output is `'_'` when position `i`
of the input is a space or hyphen, and the lower-cased input character
otherwise. -/
def specColumnAux : List Char → List Char
  | [] => []
  | c :: cs => (if c = ' ' ∨ c = '-' then '_' else pyCharLower c) :: specColumnAux cs

/-- Spec-side column sanitizer (see `specColumnAux`). -/
def specColumnSanitize (s : String) : String := ⟨specColumnAux s.data⟩

/-- Spec §4.1, table rule, read per character: "retain only characters that
are alphanumeric or underscore, drop everything else, then lower-case the
result". -/
def specTableAux : List Char → List Char
  | [] => []
  | c :: cs => if keepChar c then pyCharLower c :: specTableAux cs else specTableAux cs

/-- Spec-side table sanitizer (see `specTableAux`). -/
def specTableSanitize (s : String) : String := ⟨specTableAux s.data⟩

/-! ## Data model -/

/-- An in-memory table: ordered column names (duplicates permitted, as in a
pandas DataFrame) and ordered rows; cell values abstracted as strings. -/
structure DataFrame where
  columns : List String
  rows : List (List String)
deriving Repr, DecidableEq

/-- The SQLite store: tables in creation order. -/
abbrev Store := List (String × DataFrame)

/-- Parsed spreadsheet: sheets in the source's native order. -/
abbrev ExcelData := List (String × DataFrame)

/-- One entry of `conversion_info` (db_converter.py lines 51-56). -/
structure ConvInfo where
  sheet_name : String
  table_name : String
  rows : Nat
  columns : List String
deriving Repr, DecidableEq

/-- First-match association-list lookup (a name occurs at most once in a
well-formed store; for the spreadsheet side, sheet names are unique in any
real workbook). -/
def lookupName : List (String × DataFrame) → String → Option DataFrame
  | [], _ => none
  | (n, df) :: rest, m => if n = m then some df else lookupName rest m

/-- `DROP TABLE IF EXISTS` — removes every entry with the given name. -/
def dropTable : Store → String → Store
  | [], _ => []
  | (n, df) :: rest, m =>
    if n = m then dropTable rest m else (n, df) :: dropTable rest m

/-- First column name that repeats an earlier one, scanning left to right —
the column at which SQLite's `CREATE TABLE` raises
`duplicate column name: <name>`. -/
def firstDupAux (seen : List String) : List String → Option String
  | [] => none
  | c :: rest => if c ∈ seen then some c else firstDupAux (c :: seen) rest

/-- See `firstDupAux`. -/
def firstDup (l : List String) : Option String := firstDupAux [] l

/-- `df.to_sql(table_name, conn, if_exists='replace', index=False)`
(db_converter.py line 48): drop any existing table of that name, then create
a fresh table from the frame and insert all rows.  The `CREATE TABLE` fails
when the frame's column names repeat; the drop has already happened.  Returns
the store after the call and the raised message, if any. -/
def to_sql (table_name : String) (df : DataFrame) (store : Store) :
    Store × Option String :=
  let dropped := dropTable store table_name
  match firstDup df.columns with
  | some c => (dropped, some ("duplicate column name: " ++ c))
  | none => (dropped ++ [(table_name, df)], none)

/-- `df.columns = [col.lower().replace(' ', '_').replace('-', '_') for col in
df.columns]` (db_converter.py lines 40-41). -/
def sanitizeDF (df : DataFrame) : DataFrame :=
  { df with columns := df.columns.map sanitize_column }

/-- The `info` dict appended for a successfully materialized sheet
(db_converter.py lines 51-57): original sheet name, derived table name,
`len(df)` (row count) and the sanitized column list. -/
def mkInfo (p : String × DataFrame) : ConvInfo :=
  { sheet_name := p.1
    table_name := sanitize_table p.1
    rows := p.2.rows.length
    columns := p.2.columns.map sanitize_column }

/-- The `for sheet_name, df in excel_data.items()` loop (db_converter.py
lines 38-57): sanitize columns, sanitize the table name, `to_sql`, append the
info entry.  A raise aborts the loop; the local `conversion_info` list is
lost, so only the exception message is surfaced, together with whatever the
store now holds. -/
def processSheets : List (String × DataFrame) → Store →
    Store × Except String (List ConvInfo)
  | [], store => (store, Except.ok [])
  | p :: rest, store =>
    match to_sql (sanitize_table p.1) (sanitizeDF p.2) store with
    | (store', some e) => (store', Except.error e)
    | (store', none) =>
      match processSheets rest store' with
      | (store'', Except.ok infos) => (store'', Except.ok (mkInfo p :: infos))
      | (store'', Except.error e) => (store'', Except.error e)

/-- Key dedup of a Python dict comprehension: first-occurrence order kept,
later duplicate keys only overwrite the (identical) value. -/
def firstDedupAux (seen : List String) : List String → List String
  | [] => []
  | s :: rest =>
    if s ∈ seen then firstDedupAux seen rest
    else s :: firstDedupAux (s :: seen) rest

/-- See `firstDedupAux`. -/
def firstDedup (l : List String) : List String := firstDedupAux [] l

/-- `{sheet: pd.read_excel(excel_file, sheet_name=sheet) for sheet in
sheet_names}` (db_converter.py lines 34-35): each selected sheet is read from
the workbook, in selection order; a name not present in the workbook raises. -/
def selectSheets (excel : ExcelData) : List String →
    Except String (List (String × DataFrame))
  | [] => Except.ok []
  | s :: rest =>
    match lookupName excel s with
    | none => Except.error ("Worksheet named " ++ s ++ " not found")
    | some df =>
      match selectSheets excel rest with
      | Except.ok l => Except.ok ((s, df) :: l)
      | Except.error e => Except.error e

/-- Lines 31-35 of db_converter.py: `sheet_name=None` loads every sheet in
native order; an explicit list is loaded through a dict comprehension, hence
in selection order with duplicate keys collapsed to their first occurrence. -/
def resolveSheets (excel : ExcelData) :
    Option (List String) → Except String (List (String × DataFrame))
  | none => Except.ok excel
  | some sel => selectSheets excel (firstDedup sel)

/-- `excel_to_database(excel_file, database_name, sheet_names)`
(db_converter.py lines 12-62).  Returns the store contents after the call
(the side effect on the database file) and either the `conversion_info`
report or the raised message. -/
def excel_to_database (excel : ExcelData) (sheet_names : Option (List String))
    (store : Store) : Store × Except String (List ConvInfo) :=
  match resolveSheets excel sheet_names with
  | Except.error e => (store, Except.error e)
  | Except.ok sheets => processSheets sheets store

/-- The sanitized table written last for a given table name by a run over
`sheets`, if any — later sheets overwrite earlier ones of the same derived
name. -/
def finalWrite (sheets : List (String × DataFrame)) (n : String) :
    Option DataFrame :=
  match sheets with
  | [] => none
  | p :: rest =>
    match finalWrite rest n with
    | some df => some df
    | none => if sanitize_table p.1 = n then some (sanitizeDF p.2) else none

/-- The report produced for selection `S`: one entry per selected sheet, in
selection order. -/
def selectedInfos (excel : ExcelData) (S : List String) : List ConvInfo :=
  S.filterMap (fun x => (lookupName excel x).map (fun df => mkInfo (x, df)))

/-- The sheets a selection `S` resolves to: each selected name paired with
its sheet, in selection order. -/
def selectedPairs (excel : ExcelData) (S : List String) :
    List (String × DataFrame) :=
  S.filterMap (fun x => (lookupName excel x).map (fun df => (x, df)))

/-! ## Decimal rendering of Python ints (`str(rows)`, `f'Sheet{i+1}'`) -/

/-- The ASCII digit for `k < 10` (and `'0'` out of range). -/
def digitChar : Nat → Char
  | 0 => '0' | 1 => '1' | 2 => '2' | 3 => '3' | 4 => '4'
  | 5 => '5' | 6 => '6' | 7 => '7' | 8 => '8' | 9 => '9'
  | _ => '0'

/-- Decimal digits of `n`, most significant first; `fuel` bounds the
recursion depth (any `fuel > n` is enough). -/
def natReprAux (fuel : Nat) (n : Nat) : List Char :=
  match fuel with
  | 0 => []
  | fuel + 1 =>
    if n < 10 then [digitChar n]
    else natReprAux fuel (n / 10) ++ [digitChar (n % 10)]

/-- Python's `str` on a nonnegative int. -/
def natRepr (n : Nat) : List Char := natReprAux (n + 1) n

/-- Python's `str` on an int: a minus sign followed by the digits when
negative. -/
def intRepr (i : Int) : String :=
  if i < 0 then ⟨'-' :: natRepr i.natAbs⟩ else ⟨natRepr i.natAbs⟩

/-! ## PDF pre-converter (converter.py lines 12-53) -/

/-- Python `str.strip()`: drop whitespace from both ends. -/
def pyStrip (s : String) : String :=
  ⟨((s.data.dropWhile Char.isWhitespace).reverse.dropWhile Char.isWhitespace).reverse⟩

/-- Python `text.split('\n')`: split at every newline, keeping empty pieces
(`"".split('\n') == ['']`). -/
def splitNl : List Char → List (List Char)
  | [] => [[]]
  | c :: cs =>
    if c = '\n' then [] :: splitNl cs
    else
      match splitNl cs with
      | [] => [[c]]
      | l :: ls => (c :: l) :: ls

/-- `[line.strip() for line in text.split('\n') if line.strip()]`
(converter.py line 38). -/
def nonBlankLines (text : String) : List String :=
  ((splitNl text.data).map (fun l => pyStrip ⟨l⟩)).filter (fun l => l ≠ "")

/-- The table-path loop of converter.py lines 46-49: each non-empty extracted
table becomes sheet `Sheet{i+1}`; empty frames are skipped but still consume
their index. -/
def writeTables : List DataFrame → Nat → List (String × DataFrame)
  | [], _ => []
  | t :: rest, i =>
    if t.rows.isEmpty || t.columns.isEmpty then writeTables rest (i + 1)
    else (⟨'S' :: 'h' :: 'e' :: 'e' :: 't' :: natRepr i⟩, t) :: writeTables rest (i + 1)

/-- The text-fallback branch of converter.py lines 30-43: collect the
non-empty trimmed lines of every page with non-empty text, and write a single
`Sheet1` with one `Content` column when at least one line was collected. -/
def textFallback (pages : List String) : List (String × DataFrame) :=
  let text_data :=
    pages.foldl (fun acc t => if t = "" then acc else acc ++ nonBlankLines t) []
  if text_data.isEmpty then []
  else [("Sheet1", { columns := ["Content"], rows := text_data.map (fun l => [l]) })]

/-- `pdf_to_excel` (converter.py lines 12-53), abstracted over the results of
the two extraction libraries: `tables` is what `tabula.read_pdf` found and
`pages` the per-page `extract_text()` strings of PyPDF2.  Returns the sheets
written to the intermediate workbook; when no sheet at all was written, the
`pd.ExcelWriter` context exit fails to save the empty workbook (openpyxl
raises `At least one sheet must be visible`), which the function's `except`
re-raises with the `Error converting PDF to Excel:` prefix. -/
def pdf_to_excel (tables : List DataFrame) (pages : List String) :
    Except String (List (String × DataFrame)) :=
  let sheets := if tables.isEmpty then textFallback pages else writeTables tables 1
  if sheets.isEmpty then
    Except.error "Error converting PDF to Excel: At least one sheet must be visible"
  else Except.ok sheets

/-- All non-empty trimmed lines of all pages, page order then line order —
the spec's description of the text fallback (§4.6). -/
def allStrippedLines (pages : List String) : List String :=
  (pages.map nonBlankLines).flatten

/-! ## Preview service (db_converter.py lines 64-71) -/

/-- `f"SELECT * FROM {table_name} LIMIT {rows}"` — the name and the limit are
spliced into the query text verbatim. -/
def queryOf (table_name : String) (rows : Int) : String :=
  "SELECT * FROM " ++ table_name ++ " LIMIT " ++ intRepr rows

/-- A character allowed inside a bare SQLite identifier. -/
def isIdentChar (c : Char) : Bool := c.isAlphanum || c == '_'

/-- A character allowed to start a bare SQLite identifier. -/
def isIdentStart (c : Char) : Bool := c.isAlpha || c == '_'

/-- The SQLite keyword list (lower-cased).  The model conservatively rejects
every keyword at the table position; SQLite's own parser tolerates a few of
them as identifiers, so `isValidIdent` below under-approximates the names
SQLite accepts — safe, since the general theorems only quantify over
`isValidIdent` names. -/
def sqliteKeywords : List String :=
  ["abort", "action", "add", "after", "all", "alter", "always", "analyze",
   "and", "as", "asc", "attach", "autoincrement", "before", "begin",
   "between", "by", "cascade", "case", "cast", "check", "collate", "column",
   "commit", "conflict", "constraint", "create", "cross", "current",
   "current_date", "current_time", "current_timestamp", "database",
   "default", "deferrable", "deferred", "delete", "desc", "detach",
   "distinct", "do", "drop", "each", "else", "end", "escape", "except",
   "exclude", "exclusive", "exists", "explain", "fail", "filter", "first",
   "following", "for", "foreign", "from", "full", "generated", "glob",
   "group", "groups", "having", "if", "ignore", "immediate", "in", "index",
   "indexed", "initially", "inner", "insert", "instead", "intersect", "into",
   "is", "isnull", "join", "key", "last", "left", "like", "limit", "match",
   "materialized", "natural", "no", "not", "nothing", "notnull", "null",
   "nulls", "of", "offset", "on", "or", "order", "others", "outer", "over",
   "partition", "plan", "pragma", "preceding", "primary", "query", "raise",
   "range", "recursive", "references", "regexp", "reindex", "release",
   "rename", "replace", "restrict", "returning", "right", "rollback", "row",
   "rows", "savepoint", "select", "set", "table", "temp", "temporary",
   "then", "ties", "to", "transaction", "trigger", "unbounded", "union",
   "unique", "update", "using", "vacuum", "values", "view", "virtual",
   "when", "where", "window", "with", "without"]

/-- Keyword test, ASCII-case-insensitive as in SQLite's tokenizer. -/
def isKeyword (w : List Char) : Bool :=
  sqliteKeywords.contains ⟨w.map pyCharLower⟩

/-- A bare (unquoted) SQLite identifier: nonempty, a letter or underscore
first, letters, digits or underscores after, and not a reserved word. -/
def isValidIdent (s : String) : Bool :=
  (match s.data with
   | [] => false
   | c :: cs => isIdentStart c && cs.all isIdentChar) && !(isKeyword s.data)

/-- Strip an expected literal prefix. -/
def stripPrefixL : List Char → List Char → Option (List Char)
  | [], cs => some cs
  | _ :: _, [] => none
  | p :: ps, c :: cs => if c = p then stripPrefixL ps cs else none

/-- Skip a run of spaces — SQLite's tokenizer treats any run of whitespace
between tokens alike (the queries at hand only ever contain spaces). -/
def skipSpaces (cs : List Char) : List Char := cs.dropWhile (fun c => c == ' ')

/-- Read a bare identifier from the front of the input. -/
def takeIdent (cs : List Char) : Option (List Char × List Char) :=
  match cs with
  | [] => none
  | c :: rest =>
    if isIdentStart c then
      some (c :: rest.takeWhile isIdentChar, rest.dropWhile isIdentChar)
    else none

/-- `10*acc + digit` over a digit string; fails at the first non-digit. -/
def parseDigits : List Char → Nat → Option Nat
  | [], acc => some acc
  | c :: cs, acc =>
    if c.isDigit then parseDigits cs (acc * 10 + (c.toNat - 48)) else none

/-- An integer literal filling the whole input: optional minus sign, then one
or more digits. -/
def parseIntAll : List Char → Option Int
  | [] => none
  | c :: cs =>
    if c = '-' then
      if cs = [] then none else (parseDigits cs 0).map (fun n => -(n : Int))
    else (parseDigits (c :: cs) 0).map (fun n => (n : Int))

/-- SQLite resolves table names ASCII-case-insensitively. -/
def sqliteLookup : Store → List Char → Option DataFrame
  | [], _ => none
  | (n, df) :: rest, m =>
    if n.data.map pyCharLower = m.map pyCharLower then some df
    else sqliteLookup rest m

/-- Evaluation of the parsed query `SELECT * FROM <name> LIMIT <k>`: a table
absent from the store is `no such table`; SQLite returns all rows when the
limit is negative and at most `k` rows otherwise. -/
def queryLookup (store : Store) (name : List Char) (k : Int) :
    Except String DataFrame :=
  match sqliteLookup store name with
  | none => Except.error ("no such table: " ++ (⟨name⟩ : String))
  | some df =>
    Except.ok { df with rows := if k < 0 then df.rows else df.rows.take k.toNat }

/-- Parsing stage after the `LIMIT` keyword: an integer literal must fill the
rest of the query. -/
def afterLimit (store : Store) (name : List Char) (rest₃ : List Char) :
    Except String DataFrame :=
  match parseIntAll rest₃ with
  | none => Except.error "syntax error"
  | some k => queryLookup store name k

/-- Parsing stage after the table name: the next token must be the `LIMIT`
keyword (the template always emits it in upper case). -/
def afterIdent (store : Store) (name : List Char) (rest₂ : List Char) :
    Except String DataFrame :=
  match takeIdent rest₂ with
  | none => Except.error "syntax error"
  | some (w, rest₃) =>
    if w = "LIMIT".data then afterLimit store name (skipSpaces rest₃)
    else Except.error "syntax error"

/-- Parsing stage after `SELECT * FROM `: a bare identifier must follow, and
a reserved word at the table position is a syntax error. -/
def afterFrom (store : Store) (rest : List Char) : Except String DataFrame :=
  match takeIdent rest with
  | none => Except.error "syntax error"
  | some (name, rest₂) =>
    if isKeyword name then Except.error "syntax error"
    else afterIdent store name (skipSpaces rest₂)

/-- SQLite's evaluation of the query text the preview emits (see the header
for the modelled region): `SELECT * FROM`, then a bare non-keyword
identifier, then the `LIMIT` keyword and an integer literal, with arbitrary
space runs between tokens. -/
def runQuery (q : String) (store : Store) : Except String DataFrame :=
  match stripPrefixL "SELECT * FROM ".data q.data with
  | none => Except.error "syntax error"
  | some rest => afterFrom store (skipSpaces rest)

/-- `get_table_preview(database_path, table_name, rows=5)` (db_converter.py
lines 64-71): run the spliced query against the store. -/
def get_table_preview (store : Store) (table_name : String) (rows : Int) :
    Except String DataFrame :=
  runQuery (queryOf table_name rows) store

/-! ## Lemmas about the sanitizers -/

theorem lookup_mem {l : List (Char × Char)} {a b : Char}
    (h : List.lookup a l = some b) : (a, b) ∈ l := by
  induction l with
  | nil => simp [List.lookup] at h
  | cons p rest ih =>
    rcases p with ⟨k, v⟩
    rw [List.lookup] at h
    rcases hk : (a == k) with _ | _
    · rw [hk] at h
      exact List.mem_cons_of_mem _ (ih h)
    · rw [hk] at h
      cases h
      have : a = k := eq_of_beq hk
      subst this
      exact List.mem_cons_self _ _

theorem pyCharLower_eq_or (c : Char) :
    pyCharLower c = c ∨ ∃ p ∈ asciiCaseTable, pyCharLower c = p.2 := by
  unfold pyCharLower
  cases h : List.lookup c asciiCaseTable with
  | none => exact Or.inl rfl
  | some v => exact Or.inr ⟨(c, v), lookup_mem h, rfl⟩

theorem asciiCaseTable_snd :
    ∀ p ∈ asciiCaseTable, ¬(p.2 = ' ' ∨ p.2 = '-') := by decide

theorem pyCharLower_ne_space {c : Char} (h : c ≠ ' ') : pyCharLower c ≠ ' ' := by
  rcases pyCharLower_eq_or c with he | ⟨p, hp, he⟩
  · rw [he]; exact h
  · rw [he]
    intro hc
    exact asciiCaseTable_snd p hp (Or.inl hc)

theorem pyCharLower_ne_hyphen {c : Char} (h : c ≠ '-') : pyCharLower c ≠ '-' := by
  rcases pyCharLower_eq_or c with he | ⟨p, hp, he⟩
  · rw [he]; exact h
  · rw [he]
    intro hc
    exact asciiCaseTable_snd p hp (Or.inr hc)

theorem sanitize_column_char (c : Char) :
    (if (if pyCharLower c = ' ' then '_' else pyCharLower c) = '-' then '_'
     else if pyCharLower c = ' ' then '_' else pyCharLower c) =
      (if c = ' ' ∨ c = '-' then '_' else pyCharLower c) := by
  by_cases h1 : c = ' '
  · subst h1; decide
  · by_cases h2 : c = '-'
    · subst h2; decide
    · rw [if_neg (pyCharLower_ne_space h1), if_neg (pyCharLower_ne_hyphen h2),
        if_neg (by simp [h1, h2])]

theorem sanitize_column_data (cs : List Char) :
    pyReplace '-' '_' (pyReplace ' ' '_' (cs.map pyCharLower)) = specColumnAux cs := by
  induction cs with
  | nil => rfl
  | cons c cs ih =>
    simp only [List.map_cons, pyReplace, specColumnAux] at *
    rw [ih]
    exact congrArg (· :: specColumnAux cs) (sanitize_column_char c)

theorem sanitize_table_data (cs : List Char) :
    (cs.filter keepChar).map pyCharLower = specTableAux cs := by
  induction cs with
  | nil => rfl
  | cons c cs ih =>
    by_cases h : keepChar c = true
    · rw [List.filter_cons_of_pos h, List.map_cons, ih, specTableAux, if_pos h]
    · rw [List.filter_cons_of_neg h, ih, specTableAux, if_neg h]

theorem filter_keep_nil {cs : List Char}
    (h : (cs.all fun c => !(keepChar c)) = true) : cs.filter keepChar = [] := by
  induction cs with
  | nil => rfl
  | cons c cs ih =>
    rw [List.all_cons, Bool.and_eq_true, Bool.not_eq_true'] at h
    rw [List.filter_cons_of_neg (by simp [h.1]), ih h.2]

/-! ## Claim theorems: sanitization -/

/-- C6: for every input string, column sanitization returns the input
lower-cased with every space and every hyphen replaced by an underscore and
no other character altered, added or removed — the code's
`lower/replace/replace` chain agrees with the spec's per-character rule
`specColumnSanitize`, which maps position `i` of the input to `'_'` when it
is a space or hyphen and to its lower-cased form otherwise. -/
theorem C6_column_sanitization (s : String) :
    sanitize_column s = specColumnSanitize s :=
  congrArg String.mk (sanitize_column_data s.data)

/-- C7: table-name sanitization keeps exactly the alphanumeric-or-underscore
characters, in order, drops every other character and lower-cases the kept
ones (it agrees with the spec's per-character rule `specTableSanitize`), and
an input with no retainable character yields the empty string. -/
theorem C7_table_sanitization (s : String) :
    sanitize_table s = specTableSanitize s ∧
      ((s.data.all fun c => !(keepChar c)) = true → sanitize_table s = "") := by
  constructor
  · exact congrArg String.mk (sanitize_table_data s.data)
  · intro h
    unfold sanitize_table
    rw [filter_keep_nil h]
    rfl

/-- Concrete instance of `C7_table_sanitization`: the all-punctuation sheet
name `"!!!"` sanitizes to the empty table name. -/
theorem C7_witness : sanitize_table "!!!" = "" :=
  (C7_table_sanitization "!!!").2 (by decide)

/-! ## Lemmas about the store and the conversion loop -/

theorem lookup_dropTable (s : Store) (n m : String) :
    lookupName (dropTable s m) n = if n = m then none else lookupName s n := by
  induction s with
  | nil => simp [dropTable, lookupName]
  | cons p rest ih =>
    rcases p with ⟨k, df⟩
    by_cases hk : k = m
    · rw [dropTable, if_pos hk, ih]
      by_cases hn : n = m
      · rw [if_pos hn, if_pos hn]
      · rw [if_neg hn, if_neg hn, lookupName, if_neg (by rw [hk]; exact fun h => hn h.symm)]
    · rw [dropTable, if_neg hk, lookupName]
      by_cases hkn : k = n
      · subst hkn
        rw [if_pos rfl, if_neg (fun h => hk h), lookupName, if_pos rfl]
      · rw [if_neg hkn, ih]
        by_cases hn : n = m
        · rw [if_pos hn, if_pos hn]
        · rw [if_neg hn, if_neg hn, lookupName, if_neg hkn]

theorem lookup_append (a b : Store) (n : String) :
    lookupName (a ++ b) n =
      match lookupName a n with
      | some df => some df
      | none => lookupName b n := by
  induction a with
  | nil => rfl
  | cons p rest ih =>
    rcases p with ⟨k, df⟩
    by_cases hk : k = n
    · rw [List.cons_append, lookupName, if_pos hk, lookupName, if_pos hk]
    · rw [List.cons_append, lookupName, if_neg hk, lookupName, if_neg hk, ih]

theorem firstDupAux_none {l seen : List String}
    (h : firstDupAux seen l = none) : l.Nodup ∧ ∀ x ∈ l, x ∉ seen := by
  induction l generalizing seen with
  | nil => exact ⟨List.nodup_nil, by simp⟩
  | cons c rest ih =>
    rw [firstDupAux] at h
    by_cases hc : c ∈ seen
    · rw [if_pos hc] at h; cases h
    · rw [if_neg hc] at h
      obtain ⟨hnd, hmem⟩ := ih h
      refine ⟨List.nodup_cons.mpr ⟨fun hcr => ?_, hnd⟩, ?_⟩
      · exact (hmem c hcr) (List.mem_cons_self _ _)
      · intro x hx
        rcases List.mem_cons.mp hx with hx | hx
        · subst hx; exact hc
        · exact fun hs => (hmem x hx) (List.mem_cons_of_mem _ hs)

theorem firstDup_of_collision {cols : List String} (f : String → String)
    {c₁ c₂ : String} (h₁ : c₁ ∈ cols) (h₂ : c₂ ∈ cols) (hne : c₁ ≠ c₂)
    (heq : f c₁ = f c₂) : ∃ c, firstDup (cols.map f) = some c := by
  cases hd : firstDup (cols.map f) with
  | some c => exact ⟨c, rfl⟩
  | none =>
    have hnd : (cols.map f).Nodup := (firstDupAux_none hd).1
    exact absurd (List.inj_on_of_nodup_map hnd h₁ h₂ heq) hne

theorem processSheets_fst_cons (p : String × DataFrame)
    (rest : List (String × DataFrame)) (s : Store)
    (hp : firstDup ((sanitizeDF p.2).columns) = none) :
    (processSheets (p :: rest) s).1 =
      (processSheets rest (dropTable s (sanitize_table p.1) ++
        [(sanitize_table p.1, sanitizeDF p.2)])).1 := by
  rw [processSheets]
  simp only [to_sql, hp]
  cases processSheets rest
      (dropTable s (sanitize_table p.1) ++ [(sanitize_table p.1, sanitizeDF p.2)]) with
  | mk s' r => cases r <;> rfl

theorem processSheets_snd_ok (sheets : List (String × DataFrame)) (s : Store)
    (h : ∀ p ∈ sheets, firstDup ((sanitizeDF p.2).columns) = none) :
    (processSheets sheets s).2 = Except.ok (sheets.map mkInfo) := by
  induction sheets generalizing s with
  | nil => rfl
  | cons p rest ih =>
    rw [processSheets]
    simp only [to_sql, h p (List.mem_cons_self _ _)]
    have hr := ih (dropTable s (sanitize_table p.1) ++
      [(sanitize_table p.1, sanitizeDF p.2)]) (fun q hq => h q (List.mem_cons_of_mem _ hq))
    cases he : processSheets rest
        (dropTable s (sanitize_table p.1) ++ [(sanitize_table p.1, sanitizeDF p.2)]) with
    | mk s' r =>
      rw [he] at hr
      simp only at hr
      subst hr
      rfl

theorem processSheets_elim {sheets : List (String × DataFrame)} {s : Store}
    {infos : List ConvInfo} (h : (processSheets sheets s).2 = Except.ok infos) :
    (∀ p ∈ sheets, firstDup ((sanitizeDF p.2).columns) = none) ∧
      infos = sheets.map mkInfo := by
  induction sheets generalizing s infos with
  | nil =>
    simp only [processSheets] at h
    cases h
    exact ⟨by simp, rfl⟩
  | cons p rest ih =>
    rw [processSheets] at h
    cases hd : firstDup ((sanitizeDF p.2).columns) with
    | some c => simp only [to_sql, hd] at h; cases h
    | none =>
      simp only [to_sql, hd] at h
      cases he : processSheets rest
          (dropTable s (sanitize_table p.1) ++ [(sanitize_table p.1, sanitizeDF p.2)]) with
      | mk s' r =>
        rw [he] at h
        cases r with
        | error e => cases h
        | ok infos' =>
          simp only at h
          cases h
          obtain ⟨hall, hinf⟩ := ih (by rw [he])
          refine ⟨?_, by rw [hinf, List.map_cons]⟩
          intro q hq
          rcases List.mem_cons.mp hq with hq | hq
          · subst hq; exact hd
          · exact hall q hq

theorem processSheets_lookup (sheets : List (String × DataFrame)) (s : Store)
    (h : ∀ p ∈ sheets, firstDup ((sanitizeDF p.2).columns) = none) (n : String) :
    lookupName (processSheets sheets s).1 n =
      match finalWrite sheets n with
      | some df => some df
      | none => lookupName s n := by
  induction sheets generalizing s with
  | nil => rfl
  | cons p rest ih =>
    rw [processSheets_fst_cons p rest s (h p (List.mem_cons_self _ _)),
      ih _ (fun q hq => h q (List.mem_cons_of_mem _ hq))]
    rw [finalWrite]
    cases finalWrite rest n with
    | some df => rfl
    | none =>
      simp only
      rw [lookup_append]
      by_cases hn : sanitize_table p.1 = n
      · rw [lookup_dropTable, if_pos hn.symm]
        simp only [lookupName, if_pos hn, if_pos hn]
      · rw [lookup_dropTable, if_neg (fun he => hn he.symm), if_neg hn]
        cases lookupName s n with
        | some df => rfl
        | none => simp only [lookupName, if_neg hn]

/-! ## Claim theorems: column collision (C1) and the worked example (C3) -/

/-- C1 counterexample: one sheet with the two distinct columns `"Cost"` and
`"COST"`, which both sanitize to `cost`.  The claim says the table is
materialized with a single `cost` column and that conversion succeeds; in
fact `CREATE TABLE` rejects the duplicated column name, the conversion
raises, and no table is written. -/
theorem C1_counterexample :
    excel_to_database [("S1", ⟨["Cost", "COST"], [["1", "2"]]⟩)] none [] =
      ([], Except.error "duplicate column name: cost") := rfl

/-- C1 amended: when two distinct original column names of one sheet sanitize
to the same name, materializing that sheet fails with a duplicate-column
error after dropping any previous table of that name; the sheet's table is
absent from the store and the conversion does not succeed. -/
theorem C1_amended (store : Store) (name : String) (df : DataFrame)
    (c₁ c₂ : String) (h₁ : c₁ ∈ df.columns) (h₂ : c₂ ∈ df.columns)
    (hne : c₁ ≠ c₂) (hcol : sanitize_column c₁ = sanitize_column c₂) :
    (∃ e, excel_to_database [(name, df)] none store =
      (dropTable store (sanitize_table name), Except.error e)) ∧
      lookupName (excel_to_database [(name, df)] none store).1
        (sanitize_table name) = none := by
  obtain ⟨c, hc⟩ := firstDup_of_collision sanitize_column h₁ h₂ hne hcol
  have hrun : excel_to_database [(name, df)] none store =
      (dropTable store (sanitize_table name),
        Except.error ("duplicate column name: " ++ c)) := by
    simp only [excel_to_database, resolveSheets, processSheets, to_sql, sanitizeDF, hc]
  refine ⟨⟨_, hrun⟩, ?_⟩
  rw [hrun]
  simp only
  rw [lookup_dropTable, if_pos rfl]

/-- Concrete discharge of `C1_amended` at the `"Cost"`/`"COST"` sheet. -/
theorem C1_witness :
    lookupName (excel_to_database [("S1", ⟨["Cost", "COST"], [["1", "2"]]⟩)]
      none []).1 (sanitize_table "S1") = none :=
  (C1_amended [] "S1" ⟨["Cost", "COST"], [["1", "2"]]⟩ "Cost" "COST"
    (by decide) (by decide) (by decide) (by decide)).2

/-- C3 counterexample: the spreadsheet with sheets `"Sales Data"` and
`"Q1-Report"`, each with columns `"Item Name"` and `"Unit-Price"`.  The claim
(and the spec's example) names the first table `sales_data`, but table
sanitization drops the space rather than replacing it, so the table is
`salesdata`. -/
theorem C3_counterexample :
    (excel_to_database
      [("Sales Data", ⟨["Item Name", "Unit-Price"], [["x", "1"]]⟩),
       ("Q1-Report", ⟨["Item Name", "Unit-Price"], [["y", "2"]]⟩)] none []).2 =
      Except.ok
        [⟨"Sales Data", "salesdata", 1, ["item_name", "unit_price"]⟩,
         ⟨"Q1-Report", "q1report", 1, ["item_name", "unit_price"]⟩] ∧
      ("salesdata" : String) ≠ "sales_data" :=
  ⟨rfl, by decide⟩

/-- C3 amended: that spreadsheet produces tables named `salesdata` and
`q1report` (the space is dropped, not turned into an underscore), each with
columns `item_name` and `unit_price`. -/
theorem C3_amended :
    excel_to_database
      [("Sales Data", ⟨["Item Name", "Unit-Price"], [["x", "1"]]⟩),
       ("Q1-Report", ⟨["Item Name", "Unit-Price"], [["y", "2"]]⟩)] none [] =
      ([("salesdata", ⟨["item_name", "unit_price"], [["x", "1"]]⟩),
        ("q1report", ⟨["item_name", "unit_price"], [["y", "2"]]⟩)],
       Except.ok
        [⟨"Sales Data", "salesdata", 1, ["item_name", "unit_price"]⟩,
         ⟨"Q1-Report", "q1report", 1, ["item_name", "unit_price"]⟩]) := rfl

/-! ## Partial failure (C4) -/

theorem processSheets_err (bad : String × DataFrame)
    (rest : List (String × DataFrame)) (c : String)
    (hbad : firstDup ((sanitizeDF bad.2).columns) = some c) :
    ∀ (pre : List (String × DataFrame)) (s : Store),
      (∀ p ∈ pre, firstDup ((sanitizeDF p.2).columns) = none) →
      processSheets (pre ++ bad :: rest) s =
        (dropTable (processSheets pre s).1 (sanitize_table bad.1),
          Except.error ("duplicate column name: " ++ c)) := by
  intro pre
  induction pre with
  | nil =>
    intro s _
    simp only [List.nil_append, processSheets, to_sql, hbad]
  | cons p pre ih =>
    intro s hpre
    rw [List.cons_append, processSheets]
    simp only [to_sql, hpre p (List.mem_cons_self _ _)]
    rw [ih _ (fun q hq => hpre q (List.mem_cons_of_mem _ hq)),
      processSheets_fst_cons p pre s (hpre p (List.mem_cons_self _ _))]

/-- C4 counterexample: two runs whose failure points differ — run A converts
sheet `"G"` and then fails on sheet `"Bad"`, run B fails immediately on
`"Bad"` — surface exactly the same result value (the bare exception message),
although run A wrote table `g` and run B wrote nothing.  The surfaced result
therefore does not make clear which sheets succeeded before the failure. -/
theorem C4_counterexample :
    (excel_to_database [("G", ⟨["x"], [["1"]]⟩),
        ("Bad", ⟨["Cost", "COST"], [["1", "2"]]⟩)] none []).2 =
      (excel_to_database [("Bad", ⟨["Cost", "COST"], [["1", "2"]]⟩)] none []).2 ∧
    lookupName (excel_to_database [("G", ⟨["x"], [["1"]]⟩),
        ("Bad", ⟨["Cost", "COST"], [["1", "2"]]⟩)] none []).1 "g" =
      some ⟨["x"], [["1"]]⟩ ∧
    lookupName (excel_to_database [("Bad", ⟨["Cost", "COST"], [["1", "2"]]⟩)]
        none []).1 "g" = none :=
  ⟨rfl, rfl, rfl⟩

/-- C4 amended: if materializing sheet N fails after sheets 1..N-1 were
written, the store keeps the tables of sheets 1..N-1 exactly as the
successful prefix left them and sheet N's table is absent (no rollback), but
the result surfaced to the caller is only the raised message: the per-sheet
`conversion_info` collected so far is a local variable of the raising
function and is lost, so the surfaced result does not identify the sheets
that succeeded. -/
theorem C4_amended (pre : List (String × DataFrame)) (bad : String × DataFrame)
    (rest : List (String × DataFrame)) (s : Store) (c : String)
    (hpre : ∀ p ∈ pre, firstDup ((sanitizeDF p.2).columns) = none)
    (hbad : firstDup ((sanitizeDF bad.2).columns) = some c) :
    excel_to_database (pre ++ bad :: rest) none s =
      (dropTable (processSheets pre s).1 (sanitize_table bad.1),
        Except.error ("duplicate column name: " ++ c)) ∧
    lookupName (excel_to_database (pre ++ bad :: rest) none s).1
      (sanitize_table bad.1) = none ∧
    ∀ n, n ≠ sanitize_table bad.1 →
      lookupName (excel_to_database (pre ++ bad :: rest) none s).1 n =
        lookupName (processSheets pre s).1 n := by
  have hrun : excel_to_database (pre ++ bad :: rest) none s =
      (dropTable (processSheets pre s).1 (sanitize_table bad.1),
        Except.error ("duplicate column name: " ++ c)) := by
    simp only [excel_to_database, resolveSheets]
    exact processSheets_err bad rest c hbad pre s hpre
  refine ⟨hrun, ?_, ?_⟩
  · rw [hrun]
    simp only
    rw [lookup_dropTable, if_pos rfl]
  · intro n hn
    rw [hrun]
    simp only
    rw [lookup_dropTable, if_neg hn]

/-- Concrete discharge of `C4_amended`: after the failing two-sheet run, the
store holds exactly the table of the successful first sheet, and the raised
message carries no sheet information. -/
theorem C4_witness :
    excel_to_database [("G", ⟨["x"], [["1"]]⟩),
        ("Bad", ⟨["Cost", "COST"], [["1", "2"]]⟩)] none [] =
      ([("g", ⟨["x"], [["1"]]⟩)], Except.error "duplicate column name: cost") :=
  (C4_amended [("G", ⟨["x"], [["1"]]⟩)] ("Bad", ⟨["Cost", "COST"], [["1", "2"]]⟩)
    [] [] "cost" (by decide) (by decide)).1

/-! ## Sheet selection (C2) -/

theorem firstDedupAux_of_nodup :
    ∀ (l seen : List String), l.Nodup → (∀ x ∈ l, x ∉ seen) →
      firstDedupAux seen l = l := by
  intro l
  induction l with
  | nil => intro seen _ _; rfl
  | cons s rest ih =>
    intro seen hnd hdis
    rw [firstDedupAux, if_neg (hdis s (List.mem_cons_self _ _))]
    rw [ih (s :: seen) (List.nodup_cons.mp hnd).2]
    intro x hx
    rw [List.mem_cons]
    rintro (h | h)
    · exact (List.nodup_cons.mp hnd).1 (h ▸ hx)
    · exact hdis x (List.mem_cons_of_mem _ hx) h

theorem firstDedup_of_nodup (l : List String) (h : l.Nodup) : firstDedup l = l :=
  firstDedupAux_of_nodup l [] h (by simp)

theorem selectSheets_ok (excel : ExcelData) :
    ∀ S : List String, (∀ x ∈ S, ∃ df, lookupName excel x = some df) →
      selectSheets excel S = Except.ok (selectedPairs excel S) := by
  intro S
  induction S with
  | nil => intro _; rfl
  | cons x S ih =>
    intro hfound
    obtain ⟨df, hdf⟩ := hfound x (List.mem_cons_self _ _)
    rw [selectSheets, hdf, ih (fun y hy => hfound y (List.mem_cons_of_mem _ hy))]
    simp [selectedPairs, List.filterMap_cons, hdf]

theorem mem_selectedPairs {excel : ExcelData} {S : List String}
    {p : String × DataFrame} (h : p ∈ selectedPairs excel S) :
    p.1 ∈ S ∧ lookupName excel p.1 = some p.2 := by
  induction S with
  | nil => cases h
  | cons x S ih =>
    rw [selectedPairs, List.filterMap_cons] at h
    cases hl : lookupName excel x with
    | none =>
      rw [hl] at h
      simp only [Option.map_none'] at h
      obtain ⟨hx, hlk⟩ := ih h
      exact ⟨List.mem_cons_of_mem _ hx, hlk⟩
    | some df =>
      rw [hl] at h
      simp only [Option.map_some'] at h
      rcases List.mem_cons.mp h with h | h
      · subst h
        exact ⟨List.mem_cons_self _ _, hl⟩
      · obtain ⟨hx, hlk⟩ := ih h
        exact ⟨List.mem_cons_of_mem _ hx, hlk⟩

theorem selectedPairs_map_mkInfo (excel : ExcelData) (S : List String) :
    (selectedPairs excel S).map mkInfo = selectedInfos excel S := by
  simp only [selectedPairs, selectedInfos, List.map_filterMap, Option.map_map]
  rfl

theorem selectedInfos_cons {excel : ExcelData} {x : String} {df : DataFrame}
    (S : List String) (hdf : lookupName excel x = some df) :
    selectedInfos excel (x :: S) = mkInfo (x, df) :: selectedInfos excel S := by
  simp only [selectedInfos, List.filterMap_cons, hdf, Option.map_some']

theorem selectedInfos_names (excel : ExcelData) :
    ∀ S : List String, (∀ x ∈ S, ∃ df, lookupName excel x = some df) →
      (selectedInfos excel S).map ConvInfo.sheet_name = S := by
  intro S
  induction S with
  | nil => intro _; rfl
  | cons x S ih =>
    intro hfound
    obtain ⟨df, hdf⟩ := hfound x (List.mem_cons_self _ _)
    rw [selectedInfos_cons S hdf, List.map_cons,
      ih (fun y hy => hfound y (List.mem_cons_of_mem _ hy))]
    rfl

theorem selectedInfos_length (excel : ExcelData) :
    ∀ S : List String, (∀ x ∈ S, ∃ df, lookupName excel x = some df) →
      (selectedInfos excel S).length = S.length := by
  intro S
  induction S with
  | nil => intro _; rfl
  | cons x S ih =>
    intro hfound
    obtain ⟨df, hdf⟩ := hfound x (List.mem_cons_self _ _)
    rw [selectedInfos_cons S hdf, List.length_cons,
      ih (fun y hy => hfound y (List.mem_cons_of_mem _ hy))]
    rfl

/-- C2 counterexample: a workbook with native sheet order `["A", "B"]` and the
explicit selection `["B", "A"]`.  The claim says the Conversion Results
follow the source's native order `["A", "B"]`; in fact the dict comprehension
over the selection preserves selection order, so the results come back as
`["B", "A"]`. -/
theorem C2_counterexample :
    (excel_to_database [("A", ⟨["x"], [["1"]]⟩), ("B", ⟨["y"], [["2"]]⟩)]
        (some ["B", "A"]) []).2 =
      Except.ok [⟨"B", "b", 1, ["y"]⟩, ⟨"A", "a", 1, ["x"]⟩] ∧
    (["B", "A"] : List String) ≠ ["A", "B"] :=
  ⟨rfl, by decide⟩

/-- C2 amended: for a distinct, explicit, non-empty selection S of sheet
names that all exist in the workbook (and materialize without a
duplicate-column failure), the conversion succeeds with exactly `len(S)`
Conversion Results, one per sheet of S, ordered by the order of S — the
selection order, not the source's native sheet order. -/
theorem C2_amended (excel : ExcelData) (S : List String) (s : Store)
    (_hne : S ≠ []) (hnd : S.Nodup)
    (hfound : ∀ x ∈ S, ∃ df, lookupName excel x = some df ∧
      firstDup ((sanitizeDF df).columns) = none) :
    (excel_to_database excel (some S) s).2 = Except.ok (selectedInfos excel S) ∧
    (selectedInfos excel S).length = S.length ∧
    (selectedInfos excel S).map ConvInfo.sheet_name = S := by
  have hfound' : ∀ x ∈ S, ∃ df, lookupName excel x = some df :=
    fun x hx => (hfound x hx).elim (fun df h => ⟨df, h.1⟩)
  have hpairs : ∀ p ∈ selectedPairs excel S,
      firstDup ((sanitizeDF p.2).columns) = none := by
    intro p hp
    obtain ⟨hx, hlk⟩ := mem_selectedPairs hp
    obtain ⟨df, hdf, hfd⟩ := hfound p.1 hx
    rw [hdf] at hlk
    cases hlk
    exact hfd
  refine ⟨?_, selectedInfos_length excel S hfound', selectedInfos_names excel S hfound'⟩
  simp only [excel_to_database, resolveSheets, firstDedup_of_nodup S hnd,
    selectSheets_ok excel S hfound']
  rw [processSheets_snd_ok _ s hpairs, selectedPairs_map_mkInfo]

/-- Concrete discharge of `C2_amended` at a one-sheet selection. -/
theorem C2_witness :
    (excel_to_database [("A", ⟨["x"], [["1"]]⟩)] (some ["A"]) []).2 =
      Except.ok (selectedInfos [("A", ⟨["x"], [["1"]]⟩)] ["A"]) :=
  (C2_amended [("A", ⟨["x"], [["1"]]⟩)] ["A"] [] (by decide) (by decide)
    (by
      intro x hx
      have hx' : x = "A" := List.mem_singleton.mp hx
      subst hx'
      exact ⟨⟨["x"], [["1"]]⟩, rfl, rfl⟩)).1

/-! ## Idempotent re-run (C5) -/

/-- C5: re-running `excel_to_database` with the identical source, identical
selection and the store produced by a first successful run yields the same
report again and leaves every table of the store with exactly the contents it
had after the first run — each materialization fully replaces the table of
that name instead of appending. -/
theorem C5_rerun_idempotent (excel : ExcelData) (sel : Option (List String))
    (s s₁ : Store) (infos : List ConvInfo)
    (h : excel_to_database excel sel s = (s₁, Except.ok infos)) :
    (excel_to_database excel sel s₁).2 = Except.ok infos ∧
    ∀ n, lookupName (excel_to_database excel sel s₁).1 n = lookupName s₁ n := by
  cases hres : resolveSheets excel sel with
  | error e =>
    simp only [excel_to_database, hres] at h
    cases congrArg Prod.snd h
  | ok sheets =>
    simp only [excel_to_database, hres] at h
    have hsnd : (processSheets sheets s).2 = Except.ok infos := by rw [h]
    have hfst : (processSheets sheets s).1 = s₁ := by rw [h]
    obtain ⟨hall, hinf⟩ := processSheets_elim hsnd
    constructor
    · simp only [excel_to_database, hres]
      rw [processSheets_snd_ok sheets s₁ hall, ← hinf]
    · intro n
      simp only [excel_to_database, hres]
      rw [processSheets_lookup sheets s₁ hall n]
      have h1 : lookupName s₁ n =
          match finalWrite sheets n with
          | some df => some df
          | none => lookupName s n := by
        rw [← hfst, processSheets_lookup sheets s hall n]
      cases hw : finalWrite sheets n with
      | some df =>
        rw [hw] at h1
        simp only
        exact h1.symm
      | none => rfl

/-! ## PDF text fallback (C8) -/

theorem nonBlankLines_empty : nonBlankLines "" = [] := rfl

theorem foldl_lines (pages : List String) :
    ∀ acc : List String,
      pages.foldl (fun a t => if t = "" then a else a ++ nonBlankLines t) acc =
        acc ++ allStrippedLines pages := by
  induction pages with
  | nil => intro acc; simp [allStrippedLines]
  | cons t pages ih =>
    intro acc
    rw [List.foldl_cons, ih]
    by_cases ht : t = ""
    · subst ht
      simp [allStrippedLines, nonBlankLines_empty]
    · rw [if_neg ht]
      simp [allStrippedLines, List.append_assoc]

theorem textFallback_eq (pages : List String) :
    textFallback pages =
      if allStrippedLines pages = [] then []
      else [("Sheet1",
        ⟨["Content"], (allStrippedLines pages).map (fun l => [l])⟩)] := by
  rw [show textFallback pages =
    (if (pages.foldl (fun acc t => if t = "" then acc else acc ++ nonBlankLines t)
          []).isEmpty = true then []
     else [("Sheet1",
       ⟨["Content"],
        (pages.foldl (fun acc t => if t = "" then acc else acc ++ nonBlankLines t)
          []).map (fun l => [l])⟩)]) from rfl]
  rw [foldl_lines pages [], List.nil_append]
  by_cases h : allStrippedLines pages = []
  · simp [h]
  · have hne : (allStrippedLines pages).isEmpty = false := by
      cases hx : allStrippedLines pages with
      | nil => exact absurd hx h
      | cons a l => rfl
    simp [h, hne]

/-- C8 counterexample: a PDF with zero tables and a single page whose
extracted text is empty.  The claim says the result is a single Record Set
(with one `Content` column); in fact no sheet is written, so saving the
workbook fails and the function raises instead of producing a Record Set. -/
theorem C8_counterexample :
    pdf_to_excel [] [""] =
      Except.error "Error converting PDF to Excel: At least one sheet must be visible" :=
  rfl

/-- C8 amended: when table extraction finds no tables and the extracted text
contains at least one non-empty trimmed line, the result is a single Record
Set with one column `Content` holding one row per non-empty trimmed line, in
page order then line order; when every page's text is blank, no sheet is
written and `pdf_to_excel` raises (openpyxl refuses to save a workbook with
no sheets).  In particular a PDF with zero tables and the three non-blank
lines `foo`, `bar`, `baz` on one page yields one Record Set with exactly 3
rows under `Content`. -/
theorem C8_text_fallback :
    (∀ pages : List String,
      pdf_to_excel [] pages =
        if allStrippedLines pages = [] then
          Except.error "Error converting PDF to Excel: At least one sheet must be visible"
        else Except.ok [("Sheet1",
          ⟨["Content"], (allStrippedLines pages).map (fun l => [l])⟩)]) ∧
    pdf_to_excel [] ["foo\n bar \n\nbaz"] =
      Except.ok [("Sheet1", ⟨["Content"], [["foo"], ["bar"], ["baz"]]⟩)] := by
  constructor
  · intro pages
    rw [show pdf_to_excel [] pages =
      (if (textFallback pages).isEmpty = true then
        Except.error "Error converting PDF to Excel: At least one sheet must be visible"
       else Except.ok (textFallback pages)) from rfl]
    rw [textFallback_eq]
    by_cases h : allStrippedLines pages = []
    · simp [h]
    · simp [h]
  · rfl

/-! ## Lemmas for the preview query (C9, C10) -/

theorem data_append (a b : String) : (a ++ b).data = a.data ++ b.data := rfl

theorem stripPrefixL_append (p r : List Char) : stripPrefixL p (p ++ r) = some r := by
  induction p with
  | nil => rfl
  | cons c p ih =>
    rw [List.cons_append]
    show (if c = c then stripPrefixL p (p ++ r) else none) = some r
    rw [if_pos rfl, ih]

theorem takeWhile_all_append {p : Char → Bool} :
    ∀ (a : List Char) (b : Char) (m : List Char),
      (∀ x ∈ a, p x = true) → p b = false →
      (a ++ b :: m).takeWhile p = a ∧ (a ++ b :: m).dropWhile p = b :: m := by
  intro a
  induction a with
  | nil =>
    intro b m _ hb
    constructor
    · rw [List.nil_append]
      exact List.takeWhile_cons_of_neg (by simp [hb])
    · rw [List.nil_append]
      exact List.dropWhile_cons_of_neg (by simp [hb])
  | cons x a ih =>
    intro b m ha hb
    have hx : p x = true := ha x (List.mem_cons_self _ _)
    obtain ⟨h1, h2⟩ := ih b m (fun y hy => ha y (List.mem_cons_of_mem _ hy)) hb
    constructor
    · rw [List.cons_append, List.takeWhile_cons_of_pos hx, h1]
    · rw [List.cons_append, List.dropWhile_cons_of_pos hx, h2]

theorem digitChar_isDigit (k : Nat) : (digitChar k).isDigit = true := by
  unfold digitChar
  split <;> decide

theorem digitChar_sub {k : Nat} (h : k < 10) : (digitChar k).toNat - 48 = k := by
  interval_cases k <;> decide

theorem parseDigits_append (a : List Char) :
    ∀ (b : List Char) (acc : Nat),
      parseDigits (a ++ b) acc =
        match parseDigits a acc with
        | some m => parseDigits b m
        | none => none := by
  induction a with
  | nil => intro b acc; rfl
  | cons c a ih =>
    intro b acc
    rw [List.cons_append]
    show (if c.isDigit then parseDigits (a ++ b) (acc * 10 + (c.toNat - 48)) else none) =
      match (if c.isDigit then parseDigits a (acc * 10 + (c.toNat - 48)) else none) with
      | some m => parseDigits b m
      | none => none
    by_cases hd : c.isDigit = true
    · rw [if_pos hd, if_pos hd, ih]
    · rw [if_neg hd, if_neg hd]

theorem parseDigits_all {l : List Char} :
    ∀ {acc n : Nat}, parseDigits l acc = some n → ∀ x ∈ l, x.isDigit = true := by
  induction l with
  | nil => intro acc n _ x hx; cases hx
  | cons c l ih =>
    intro acc n h x hx
    have h' : (if c.isDigit then parseDigits l (acc * 10 + (c.toNat - 48)) else none) =
        some n := h
    by_cases hd : c.isDigit = true
    · rw [if_pos hd] at h'
      rcases List.mem_cons.mp hx with hx | hx
      · rw [hx]; exact hd
      · exact ih h' x hx
    · rw [if_neg hd] at h'
      cases h'

theorem natReprAux_parse : ∀ (fuel n : Nat), n < fuel →
    ∀ acc, ∃ w, 0 < w ∧ parseDigits (natReprAux fuel n) acc = some (acc * w + n) := by
  intro fuel
  induction fuel with
  | zero => intro n h; exact absurd h (Nat.not_lt_zero n)
  | succ fuel ih =>
    intro n h acc
    rw [natReprAux]
    by_cases h10 : n < 10
    · rw [if_pos h10]
      refine ⟨10, by omega, ?_⟩
      show (if (digitChar n).isDigit then
          parseDigits [] (acc * 10 + ((digitChar n).toNat - 48)) else none) =
        some (acc * 10 + n)
      rw [if_pos (digitChar_isDigit n)]
      show some (acc * 10 + ((digitChar n).toNat - 48)) = some (acc * 10 + n)
      rw [digitChar_sub h10]
    · rw [if_neg h10]
      have hlt : n / 10 < fuel := by
        have h1 : n / 10 < n := Nat.div_lt_self (by omega) (by omega)
        omega
      obtain ⟨w, hw, hp⟩ := ih (n / 10) hlt acc
      refine ⟨w * 10, by positivity, ?_⟩
      rw [parseDigits_append, hp]
      show (if (digitChar (n % 10)).isDigit then
          parseDigits [] ((acc * w + n / 10) * 10 + ((digitChar (n % 10)).toNat - 48))
          else none) =
        some (acc * (w * 10) + n)
      rw [if_pos (digitChar_isDigit _), digitChar_sub (Nat.mod_lt n (by omega))]
      show some ((acc * w + n / 10) * 10 + n % 10) = some (acc * (w * 10) + n)
      have hd : n / 10 * 10 + n % 10 = n := by omega
      rw [Nat.add_mul, Nat.add_assoc, hd, Nat.mul_assoc]

theorem natReprAux_shape : ∀ (fuel n : Nat), n < fuel →
    (∃ c cs, natReprAux fuel n = c :: cs) ∧
      ∀ x ∈ natReprAux fuel n, x.isDigit = true := by
  intro fuel
  induction fuel with
  | zero => intro n h; exact absurd h (Nat.not_lt_zero n)
  | succ fuel ih =>
    intro n h
    rw [natReprAux]
    by_cases h10 : n < 10
    · rw [if_pos h10]
      refine ⟨⟨_, _, rfl⟩, ?_⟩
      intro x hx
      rw [List.mem_singleton.mp hx]
      exact digitChar_isDigit n
    · rw [if_neg h10]
      have hlt : n / 10 < fuel := by
        have h1 : n / 10 < n := Nat.div_lt_self (by omega) (by omega)
        omega
      obtain ⟨⟨c, cs, hc⟩, hall⟩ := ih (n / 10) hlt
      constructor
      · exact ⟨c, cs ++ [digitChar (n % 10)], by rw [hc, List.cons_append]⟩
      · intro x hx
        rcases List.mem_append.mp hx with hx | hx
        · exact hall x hx
        · rw [List.mem_singleton.mp hx]
          exact digitChar_isDigit _

theorem parseDigits_natRepr (n : Nat) : parseDigits (natRepr n) 0 = some n := by
  obtain ⟨w, _, hp⟩ := natReprAux_parse (n + 1) n (Nat.lt_succ_self n) 0
  rw [natRepr, hp, Nat.zero_mul, Nat.zero_add]

theorem natRepr_shape (n : Nat) :
    (∃ c cs, natRepr n = c :: cs) ∧ ∀ x ∈ natRepr n, x.isDigit = true :=
  natReprAux_shape (n + 1) n (Nat.lt_succ_self n)

theorem parseIntAll_intRepr (r : Int) : parseIntAll (intRepr r).data = some r := by
  by_cases hr : r < 0
  · have hdata : (intRepr r).data = '-' :: natRepr r.natAbs := by
      rw [intRepr, if_pos hr]
    rw [hdata]
    obtain ⟨⟨c, cs, hc⟩, _⟩ := natRepr_shape r.natAbs
    have hne : natRepr r.natAbs ≠ [] := by
      rw [hc]; exact List.cons_ne_nil _ _
    show (if ('-' : Char) = '-' then
        (if natRepr r.natAbs = [] then none
         else (parseDigits (natRepr r.natAbs) 0).map (fun n => -(n : Int)))
        else (parseDigits ('-' :: natRepr r.natAbs) 0).map (fun n => (n : Int))) =
      some r
    rw [if_pos rfl, if_neg hne, parseDigits_natRepr]
    show some (-(r.natAbs : Int)) = some r
    congr 1
    omega
  · have hdata : (intRepr r).data = natRepr r.natAbs := by
      rw [intRepr, if_neg hr]
    obtain ⟨⟨c, cs, hc⟩, hall⟩ := natRepr_shape r.natAbs
    have hcd : c.isDigit = true := hall c (by rw [hc]; exact List.mem_cons_self _ _)
    have hcne : c ≠ '-' := by
      intro he
      rw [he] at hcd
      exact absurd hcd (by decide)
    rw [hdata, hc]
    show (if c = '-' then
        (if cs = [] then none else (parseDigits cs 0).map (fun n => -(n : Int)))
        else (parseDigits (c :: cs) 0).map (fun n => (n : Int))) = some r
    rw [if_neg hcne, ← hc, parseDigits_natRepr]
    show some ((r.natAbs : Int)) = some r
    congr 1
    omega

theorem intRepr_head (r : Int) :
    ∃ c cs, (intRepr r).data = c :: cs ∧ (c == ' ') = false := by
  by_cases hr : r < 0
  · exact ⟨'-', natRepr r.natAbs, by rw [intRepr, if_pos hr], by decide⟩
  · obtain ⟨⟨c, cs, hc⟩, hall⟩ := natRepr_shape r.natAbs
    refine ⟨c, cs, by rw [intRepr, if_neg hr]; exact hc, ?_⟩
    have hcd : c.isDigit = true := hall c (by rw [hc]; exact List.mem_cons_self _ _)
    cases hb : (c == ' ') with
    | false => rfl
    | true =>
      have hce : c = ' ' := eq_of_beq hb
      rw [hce] at hcd
      exact absurd hcd (by decide)

theorem skipSpaces_cons_of_ne {c : Char} (h : (c == ' ') = false) (t : List Char) :
    skipSpaces (c :: t) = c :: t :=
  List.dropWhile_cons_of_neg (by simp [h])

theorem skipSpaces_cons_space (t : List Char) :
    skipSpaces (' ' :: t) = skipSpaces t :=
  List.dropWhile_cons_of_pos rfl

theorem identStart_ne_space {c : Char} (h : isIdentStart c = true) :
    (c == ' ') = false := by
  cases hb : (c == ' ') with
  | false => rfl
  | true =>
    have hc : c = ' ' := eq_of_beq hb
    rw [hc] at h
    exact absurd h (by decide)

theorem isValidIdent_unpack {n : String} (h : isValidIdent n = true) :
    (∃ c cs, n.data = c :: cs ∧ isIdentStart c = true ∧
      ∀ x ∈ cs, isIdentChar x = true) ∧ isKeyword n.data = false := by
  rw [isValidIdent, Bool.and_eq_true] at h
  obtain ⟨h1, h2⟩ := h
  constructor
  · cases hd : n.data with
    | nil =>
      rw [hd] at h1
      have h1' : false = true := h1
      cases h1'
    | cons c cs =>
      rw [hd] at h1
      have h1' : (isIdentStart c && cs.all isIdentChar) = true := h1
      rw [Bool.and_eq_true] at h1'
      exact ⟨c, cs, rfl, h1'.1, fun x hx => by
        have := List.all_eq_true.mp h1'.2 x hx
        simpa using this⟩
  · cases hb : isKeyword n.data with
    | false => rfl
    | true =>
      rw [hb] at h2
      cases h2

theorem takeIdent_exact {d : List Char}
    (hd : ∃ c cs, d = c :: cs ∧ isIdentStart c = true ∧
      ∀ x ∈ cs, isIdentChar x = true)
    (b : Char) (m : List Char) (hb : isIdentChar b = false) :
    takeIdent (d ++ b :: m) = some (d, b :: m) := by
  obtain ⟨c, cs, rfl, hs, hall⟩ := hd
  rw [List.cons_append]
  show (if isIdentStart c then
      some (c :: (cs ++ b :: m).takeWhile isIdentChar, (cs ++ b :: m).dropWhile isIdentChar)
      else none) = some (c :: cs, b :: m)
  obtain ⟨h1, h2⟩ := takeWhile_all_append cs b m hall hb
  rw [if_pos hs, h1, h2]

theorem query_data (n : String) (r : Int) :
    (queryOf n r).data =
      "SELECT * FROM ".data ++ (n.data ++ (" LIMIT ".data ++ (intRepr r).data)) := by
  rw [queryOf, data_append, data_append, data_append, List.append_assoc,
    List.append_assoc]

/-- Concrete discharge of `C5_rerun_idempotent`: the second run over the
store written by the first reproduces the same report and contents. -/
theorem C5_witness :
    (excel_to_database [("A", ⟨["x"], [["1"]]⟩)] none
        [("a", ⟨["x"], [["1"]]⟩)]).2 = Except.ok [⟨"A", "a", 1, ["x"]⟩] ∧
    lookupName (excel_to_database [("A", ⟨["x"], [["1"]]⟩)] none
        [("a", ⟨["x"], [["1"]]⟩)]).1 "a" =
      lookupName [("a", ⟨["x"], [["1"]]⟩)] "a" :=
  ⟨(C5_rerun_idempotent [("A", ⟨["x"], [["1"]]⟩)] none []
      [("a", ⟨["x"], [["1"]]⟩)] [⟨"A", "a", 1, ["x"]⟩] rfl).1,
   (C5_rerun_idempotent [("A", ⟨["x"], [["1"]]⟩)] none []
      [("a", ⟨["x"], [["1"]]⟩)] [⟨"A", "a", 1, ["x"]⟩] rfl).2 "a"⟩

theorem afterFrom_some {store : Store} {rest name rest₂ : List Char}
    (h : takeIdent rest = some (name, rest₂)) (hk : isKeyword name = false) :
    afterFrom store rest = afterIdent store name (skipSpaces rest₂) := by
  unfold afterFrom
  rw [h]
  show (if isKeyword name = true then Except.error "syntax error"
    else afterIdent store name (skipSpaces rest₂)) = _
  rw [hk]
  exact if_neg (by decide)

theorem afterIdent_limit {store : Store} {name rest₂ rest₃ : List Char}
    (h : takeIdent rest₂ = some ("LIMIT".data, rest₃)) :
    afterIdent store name rest₂ = afterLimit store name (skipSpaces rest₃) := by
  unfold afterIdent
  rw [h]
  show (if "LIMIT".data = "LIMIT".data then afterLimit store name (skipSpaces rest₃)
    else Except.error "syntax error") = _
  rw [if_pos rfl]

theorem afterLimit_some {store : Store} {name rest₃ : List Char} {k : Int}
    (h : parseIntAll rest₃ = some k) :
    afterLimit store name rest₃ = queryLookup store name k := by
  unfold afterLimit
  rw [h]

theorem preview_of_valid {n : String} (hv : isValidIdent n = true)
    (store : Store) (r : Int) :
    get_table_preview store n r =
      match sqliteLookup store n.data with
      | none => Except.error ("no such table: " ++ n)
      | some df =>
        Except.ok { df with rows := if r < 0 then df.rows else df.rows.take r.toNat } := by
  obtain ⟨⟨c, cs, hd, hs, hall⟩, hnk⟩ := isValidIdent_unpack hv
  rw [hd] at hnk
  have hL : " LIMIT ".data = ' ' :: "LIMIT ".data := rfl
  rw [get_table_preview, runQuery, query_data, stripPrefixL_append]
  show afterFrom store (skipSpaces (n.data ++ (" LIMIT ".data ++ (intRepr r).data))) = _
  rw [hd, List.cons_append, skipSpaces_cons_of_ne (identStart_ne_space hs),
    hL, List.cons_append]
  have hTI : takeIdent (c :: (cs ++ ' ' :: ("LIMIT ".data ++ (intRepr r).data))) =
      some (c :: cs, ' ' :: ("LIMIT ".data ++ (intRepr r).data)) := by
    have h0 := takeIdent_exact ⟨c, cs, rfl, hs, hall⟩ ' '
      ("LIMIT ".data ++ (intRepr r).data) (by decide)
    rwa [List.cons_append] at h0
  rw [afterFrom_some hTI hnk, skipSpaces_cons_space,
    show "LIMIT ".data ++ (intRepr r).data = 'L' :: ("IMIT ".data ++ (intRepr r).data)
      from rfl,
    skipSpaces_cons_of_ne (by decide)]
  have hTI2 : takeIdent ('L' :: ("IMIT ".data ++ (intRepr r).data)) =
      some ("LIMIT".data, ' ' :: (intRepr r).data) := by
    have h0 := takeIdent_exact (d := "LIMIT".data)
      ⟨'L', "IMIT".data, rfl, by decide, by decide⟩ ' ' (intRepr r).data (by decide)
    rwa [show ("LIMIT".data ++ ' ' :: (intRepr r).data) =
      'L' :: ("IMIT ".data ++ (intRepr r).data) from rfl] at h0
  rw [afterIdent_limit hTI2, skipSpaces_cons_space]
  obtain ⟨c0, cs0, hD, hD0⟩ := intRepr_head r
  rw [hD, skipSpaces_cons_of_ne hD0, ← hD,
    afterLimit_some (parseIntAll_intRepr r), ← hd]
  rfl

/-! ## Claim theorems: preview (C9, C10) -/

/-- C9 counterexample: `get_table_preview` with the (perfectly legal Python)
limit `-1` on a six-row table.  SQLite treats a negative `LIMIT` as
unlimited, so all six rows come back although the claim promises at most
`limit` rows for every limit. -/
theorem C9_counterexample :
    get_table_preview
        [("t", ⟨["a"], [["1"], ["2"], ["3"], ["4"], ["5"], ["6"]]⟩)] "t" (-1) =
      Except.ok ⟨["a"], [["1"], ["2"], ["3"], ["4"], ["5"], ["6"]]⟩ ∧
    ¬((6 : Int) ≤ -1) :=
  ⟨rfl, by decide⟩

/-- C9 amended: for every table name that is a valid bare SQL identifier
(letter-or-underscore start, alphanumeric-or-underscore body, not a reserved
word), the preview returns at most `limit` rows whenever the limit is
nonnegative (at most 5 with the default), and fails with a no-such-table
error whenever no table matches the name (SQLite resolves table names
ASCII-case-insensitively); a negative limit is spliced verbatim into
SQLite's `LIMIT`, which treats it as unlimited and returns every row.  For
names outside this shape the spliced text is evaluated as SQL, not as a
name (see C10), so no uniform bound or error form holds. -/
theorem C9_preview_limit :
    (∀ (store : Store) (n : String) (r : Int) (df : DataFrame),
      isValidIdent n = true → 0 ≤ r → get_table_preview store n r = Except.ok df →
      (df.rows.length : Int) ≤ r) ∧
    (∀ (store : Store) (n : String) (r : Int),
      isValidIdent n = true → sqliteLookup store n.data = none →
      get_table_preview store n r = Except.error ("no such table: " ++ n)) := by
  constructor
  · intro store n r df hv hr hok
    rw [preview_of_valid hv store r] at hok
    cases hlk : sqliteLookup store n.data with
    | none =>
      rw [hlk] at hok
      have h' : (Except.error ("no such table: " ++ n) : Except String DataFrame) =
          Except.ok df := hok
      cases h'
    | some df₀ =>
      rw [hlk] at hok
      have h' : Except.ok { df₀ with rows := if r < 0 then df₀.rows else df₀.rows.take r.toNat } =
          Except.ok df := hok
      have hdf : df = { df₀ with rows := if r < 0 then df₀.rows else df₀.rows.take r.toNat } :=
        (Except.ok.inj h').symm
      rw [hdf]
      simp only [if_neg (by omega : ¬ r < 0)]
      rw [List.length_take]
      have h1 : min r.toNat df₀.rows.length ≤ r.toNat := Nat.min_le_left _ _
      omega
  · intro store n r hv hlk
    rw [preview_of_valid hv store r, hlk]

/-- Concrete discharge of `C9_preview_limit`: a one-row table previewed with
the default limit 5 returns at most 5 rows. -/
theorem C9_witness :
    ((⟨["a"], [["1"]]⟩ : DataFrame).rows.length : Int) ≤ 5 :=
  C9_preview_limit.1 [("t", ⟨["a"], [["1"]]⟩)] "t" 5 ⟨["a"], [["1"]]⟩
    (by decide) (by decide) rfl

/-- C10 counterexample: the claim says the preview only works for table
names that are valid bare SQL identifiers.  The name `"t "` (trailing space)
is not a bare identifier, yet the preview succeeds with it whenever table
`t` exists: the extra space is token separation in the spliced SQL text, not
part of a name. -/
theorem C10_counterexample :
    get_table_preview [("t", ⟨["a"], [["1"]]⟩)] "t " 5 =
      Except.ok ⟨["a"], [["1"]]⟩ ∧
    isValidIdent "t " = false :=
  ⟨rfl, by decide⟩

/-- C10 amended: the preview splices `table_name` and `rows` verbatim into
the query text (`queryOf` is raw string concatenation, no quoting or
validation), and the spliced name is interpreted as SQL text rather than as
an opaque name: materialization can legitimately create a table whose name
is the empty string (sheet `"!!!"`), whose data is then written and reported
yet unreachable by the preview (the spliced query is a syntax error), while
the two distinct opaque names `"t"` and `"t "` reach the same single table
`t` — so the preview fails on some materializable names but is not limited
to valid bare identifiers either. -/
theorem C10_preview_splicing :
    (∀ (n : String) (r : Int),
      queryOf n r = "SELECT * FROM " ++ n ++ " LIMIT " ++ intRepr r) ∧
    excel_to_database [("!!!", ⟨["a"], [["1"]]⟩)] none [] =
      ([("", ⟨["a"], [["1"]]⟩)], Except.ok [⟨"!!!", "", 1, ["a"]⟩]) ∧
    get_table_preview [("", ⟨["a"], [["1"]]⟩)] "" 5 = Except.error "syntax error" ∧
    get_table_preview [("t", ⟨["a"], [["1"], ["2"]]⟩)] "t" 5 =
      Except.ok ⟨["a"], [["1"], ["2"]]⟩ ∧
    get_table_preview [("t", ⟨["a"], [["1"], ["2"]]⟩)] "t " 5 =
      Except.ok ⟨["a"], [["1"], ["2"]]⟩ :=
  ⟨fun _ _ => rfl, rfl, rfl, rfl, rfl⟩

end FilesToDB
